import Mathlib

/- Verification development for the DDNSWolf repository (the ddnswolf tree and
the dnsden historical tree). The definitions below are a shallow embedding of
the Python source: the address value model, the reconciliation engine of
DynamicDNSUpdater.update_from_subscriptions, the default needs_update check,
the Cloudflare zone resolver with its 4-hour cache, the positional and family
address filters, the dnsden private/public filters, and the subscription
expression evaluator wired up in DDNSWolfApplication.from_config. -/

namespace DDNSWolf

/-- Classification data of one IP address as exposed by the Python ipaddress
module: the numeric value of the address plus the is_global and is_private
properties that the code consults. The classification flags are carried as
data because the code only ever reads them (it delegates the classification
itself to the ipaddress module). -/
structure IPData where
  value : Nat
  isGlobal : Bool
  isPrivate : Bool
deriving DecidableEq, Repr

/-- An AddressUpdate object (ddnswolf.models.address_update): its concrete
class is IPv4AddressUpdate, IPv6AddressUpdate, or some other subclass of the
AddressUpdate base (identified here by a numeric class id; such objects carry
no address attribute, matching the base class which stores nothing). -/
inductive Addr where
  | v4 : IPData → Addr
  | v6 : IPData → Addr
  | other : Nat → Addr
deriving DecidableEq, Repr

/-- The key used by the cleaned_addresses dict in update_from_subscriptions:
type(addr), i.e. the concrete AddressUpdate subclass of the object. -/
inductive AddrKey where
  | kv4 : AddrKey
  | kv6 : AddrKey
  | kother : Nat → AddrKey
deriving DecidableEq, Repr

/-- isinstance(addr, IPv4AddressUpdate). -/
def is_ipv4_update : Addr → Bool
  | .v4 _ => true
  | _ => false

/-- isinstance(addr, IPv6AddressUpdate). -/
def is_ipv6_update : Addr → Bool
  | .v6 _ => true
  | _ => false

/-- type(addr) as a dictionary key. -/
def addrKey : Addr → AddrKey
  | .v4 _ => .kv4
  | .v6 _ => .kv6
  | .other n => .kother n

/-- addr.address.is_global where that attribute exists. An other-family
AddressUpdate has no address attribute and is never globally routable; the
code guards every access of is_global behind an isinstance check, so this
total function agrees with the source on every path the source evaluates. -/
def addrIsGlobal : Addr → Bool
  | .v4 ip => ip.isGlobal
  | .v6 ip => ip.isGlobal
  | .other _ => false

/-- The replacement test of the dedup loop in update_from_subscriptions:
(isinstance(addr, IPv4AddressUpdate) or isinstance(addr, IPv6AddressUpdate))
and addr.address.is_global and not cleaned_addresses(type(addr)).address.is_global. -/
def replacePref (a kept : Addr) : Bool :=
  (is_ipv4_update a || is_ipv6_update a) && addrIsGlobal a && !(addrIsGlobal kept)

/-- Lookup in an insertion-ordered association list, the embedding of a Python
dict access. -/
def lookupA : List (AddrKey × Addr) → AddrKey → Option Addr
  | [], _ => none
  | kv :: rest, k => if kv.1 = k then some kv.2 else lookupA rest k

/-- Overwrite the value stored at an existing key; a Python dict keeps the
original insertion position of the key when its value is overwritten (keys
are unique, so replacing the first occurrence is the dict overwrite). -/
def assocPut : List (AddrKey × Addr) → AddrKey → Addr → List (AddrKey × Addr)
  | [], _, _ => []
  | kv :: rest, k, a => if kv.1 = k then (k, a) :: rest else kv :: assocPut rest k a

/-- One iteration of the dedup loop of update_from_subscriptions: a fresh
family is appended; an already-seen family is replaced only under
replacePref. -/
def cleanStep (d : List (AddrKey × Addr)) (a : Addr) : List (AddrKey × Addr) :=
  match lookupA d (addrKey a) with
  | none => d ++ [(addrKey a, a)]
  | some kept => if replacePref a kept then assocPut d (addrKey a) a else d

/-- The cleaned_addresses dict built by update_from_subscriptions from the
concatenated subscription output, as an insertion-ordered association list. -/
def cleaned_addresses (xs : List Addr) : List (AddrKey × Addr) :=
  xs.foldl cleanStep []

/-- Specification-side step of the dedup policy, written from the wording of
the spec: the first address seen for a family is kept; a later address
replaces the kept one exactly when the later one is globally routable and the
kept one is not (an address outside the IP families is never globally
routable). -/
def stepSpec (acc : Option Addr) (a : Addr) : Option Addr :=
  match acc with
  | none => some a
  | some c => if addrIsGlobal a && !(addrIsGlobal c) then some a else some c

/-- Specification-side characterization of the surviving address of one
family: fold the spec-side keep/replace rule over the addresses of that
family in arrival order. Compared against cleaned_addresses in the C1
theorem. -/
def keptForFamilySpec (xs : List Addr) : Option Addr :=
  xs.foldl stepSpec none

/-- Outcome recorded for one deduplicated address by the per-address loop of
update_from_subscriptions. -/
inductive Outcome where
  | updated : Outcome
  | noUpdateNeeded : Outcome
  | failed : String → Outcome
deriving DecidableEq, Repr

/-- The body of the per-address try block: needs_update, then update when
needed; any raised exception is caught and recorded for this address. The
needs_update and update operations are oracles, since concrete updaters
override them. -/
def processOne (nu : Addr → Except String Bool) (up : Addr → Except String Unit)
    (a : Addr) : Outcome :=
  match nu a with
  | .error e => .failed e
  | .ok true =>
    match up a with
    | .error e => .failed e
    | .ok _ => .updated
  | .ok false => .noUpdateNeeded

/-- The per-address for loop of update_from_subscriptions: each iteration is
wrapped in try/except, so the loop always advances to the next address. -/
def updateLoop (nu : Addr → Except String Bool) (up : Addr → Except String Unit) :
    List Addr → List (Addr × Outcome)
  | [] => []
  | a :: rest => (a, processOne nu up a) :: updateLoop nu up rest

/-- list(itertools.chain(*map(lambda p: p.provide_addresses(), subscriptions))):
each subscription pull either yields a list of addresses or raises; the first
raise propagates and aborts the collection. -/
def collectPulls : List (Except String (List Addr)) → Except String (List (List Addr))
  | [] => .ok []
  | p :: ps =>
    match p with
    | .error e => .error e
    | .ok xs =>
      match collectPulls ps with
      | .error e => .error e
      | .ok rest => .ok (xs :: rest)

/-- DynamicDNSUpdater.update_from_subscriptions: pull every subscription
(outside any try block), concatenate, dedup per concrete family, then run the
per-address loop over the values of the cleaned dict. The result pairs each
surviving address with its recorded outcome; a raise during the pull phase
propagates out of the whole cycle. -/
def update_from_subscriptions (pulls : List (Except String (List Addr)))
    (nu : Addr → Except String Bool) (up : Addr → Except String Unit) :
    Except String (List (Addr × Outcome)) :=
  match collectPulls pulls with
  | .error e => .error e
  | .ok lists =>
    let all_addresses := lists.flatten
    let cleaned := cleaned_addresses all_addresses
    .ok (updateLoop nu up (cleaned.map Prod.snd))

/-- DNS resource record types used by the updaters: A for IPv4 and AAAA for
IPv6. -/
inductive RdType where
  | A : RdType
  | AAAA : RdType
deriving DecidableEq, Repr

/-- One answer returned by the system resolver: its record type and the
decoded numeric address value. -/
structure DnsAnswer where
  rdtype : RdType
  address : Nat
deriving DecidableEq, Repr

/-- The rdtype class attribute: defined on IPv4AddressUpdate (A) and
IPv6AddressUpdate (AAAA); absent on the AddressUpdate base, where reading it
raises AttributeError. -/
def Addr.rdtypeAttr : Addr → Option RdType
  | .v4 _ => some .A
  | .v6 _ => some .AAAA
  | .other _ => none

/-- The address attribute: present on the two IP update classes, absent on
the base class. -/
def Addr.addressAttr : Addr → Option Nat
  | .v4 ip => some ip.value
  | .v6 ip => some ip.value
  | .other _ => none

/-- DynamicDNSUpdater.needs_update as written in the source, with the system
resolver as an oracle. The guard is transcribed verbatim:
if not isinstance(u, IPv4AddressUpdate) or isinstance(u, IPv6AddressUpdate)
then raise Unsupported. After the guard, the configured name is resolved for
u.rdtype and the first answer of that record type decides the result; no
answer of that type means an update is needed. -/
def needs_update (resolve : RdType → Except String (List DnsAnswer)) (u : Addr) :
    Except String Bool :=
  if !(is_ipv4_update u) || is_ipv6_update u then
    .error "Unsupported address update"
  else
    match u.rdtypeAttr, u.addressAttr with
    | some rt, some val =>
      match resolve rt with
      | .error e => .error e
      | .ok answers =>
        match answers.find? (fun ans => decide (ans.rdtype = rt)) with
        | some ans => .ok (decide (ans.address ≠ val))
        | none => .ok true
    | _, _ => .error "AttributeError"

/-- A Cloudflare zone object as the resolver consumes it: only its name field
is inspected. Names are label lists read left to right; a trailing empty label
stands for the DNS root separator. -/
structure Zone where
  zname : List String
deriving DecidableEq, Repr

/-- Strip one trailing root label, as dns.name equality ignores the trailing
root separator of an absolute name. -/
def stripRoot (n : List String) : List String :=
  match n.getLast? with
  | some "" => n.dropLast
  | _ => n

/-- Lowercase one ASCII character, the case folding dns.name comparison
applies to labels. -/
def toLowerChar (c : Char) : Char :=
  if c.isUpper then Char.ofNat (c.toNat + 32) else c

/-- Lowercase one label, as its character list. -/
def lowerLabel (s : String) : List Char :=
  s.data.map toLowerChar

/-- Normalization underlying dns_names_equal: names compare equal ignoring
case and a trailing root separator. -/
def normalizeName (n : List String) : List (List Char) :=
  (stripRoot n).map lowerLabel

/-- util.dns_names_equal: case-insensitive DNS name equality that ignores the
trailing root separator. -/
def dns_names_equal (a b : List String) : Bool :=
  decide (normalizeName a = normalizeName b)

/-- One probe of the ascent loop in CloudflareDNSUpdater._get_zone: query the
API for zones with the candidate name and take the first returned zone whose
name matches under dns_names_equal; a CloudFlareAPIError from the query is
swallowed (except: pass) and yields no match. -/
def matchingZone (q : List String → Except Unit (List Zone)) (cand : List String) :
    Option Zone :=
  match q cand with
  | .ok zones => zones.find? (fun z => dns_names_equal z.zname cand)
  | .error _ => none

/-- The message raised when the ascent exhausts the root. -/
def noZoneMsg : String :=
  "Could not find the zone for the hostname. Either it is the wrong name or the access token does not have sufficient permissions to read the zone."

/-- The while True ascent of _get_zone: probe the current candidate name; on a
match stop; otherwise strip the leftmost label (dns.name parent) and retry;
when the root itself has been probed without a match, the next parent call
raises NoParent and the search fails. Returns the probed candidates in order
together with the result. -/
def getZoneSearch (q : List String → Except Unit (List Zone)) :
    List String → List (List String) × Except String Zone
  | [] =>
    match matchingZone q [] with
    | some z => ([[]], .ok z)
    | none => ([[]], .error noZoneMsg)
  | l :: rest =>
    match matchingZone q (l :: rest) with
    | some z => ([l :: rest], .ok z)
    | none =>
      let r := getZoneSearch q rest
      ((l :: rest) :: r.1, r.2)

/-- The per-updater zone cache: the _cf_zone and _cf_zone_last_update fields.
Timestamps are seconds; datetime.min is modelled as 0. -/
structure CFState where
  cfZone : Option Zone
  lastUpdate : Nat
deriving DecidableEq, Repr

/-- The freshness window of the zone cache: timedelta(hours=4), in seconds. -/
def fourHours : Nat := 14400

/-- CloudflareDNSUpdater._set_zone: store the zone and stamp the cache with
the current time; clearing the zone resets the stamp to datetime.min. -/
def set_zone (_st : CFState) (z : Option Zone) (now : Nat) : CFState :=
  match z with
  | some _ => { cfZone := z, lastUpdate := now }
  | none => { cfZone := none, lastUpdate := 0 }

/-- The cache-miss path of _get_zone: run the ascent; on success cache the
found zone via set_zone; on failure the exception propagates with the cache
untouched. Returns the probed candidate names, the result, and the new cache
state. -/
def getZoneRemote (q : List String → Except Unit (List Zone)) (h : List String)
    (now : Nat) (st : CFState) :
    List (List String) × Except String Zone × CFState :=
  match getZoneSearch q h with
  | (probes, .ok z) => (probes, .ok z, set_zone st (some z) now)
  | (probes, .error e) => (probes, .error e, st)

/-- CloudflareDNSUpdater._get_zone: if the cached zone exists and
_cf_zone_last_update + 4 hours > now, return it without any remote call
(probe list empty); otherwise run the remote ascent. -/
def get_zone (q : List String → Except Unit (List Zone)) (h : List String)
    (now : Nat) (st : CFState) :
    List (List String) × Except String Zone × CFState :=
  match st.cfZone with
  | some z =>
    if st.lastUpdate + fourHours > now then ([], .ok z, st)
    else getZoneRemote q h now st
  | none => getZoneRemote q h now st

/-- One zone-resolution request: the wall-clock time at which it is issued and
the zone-listing API available to it. -/
structure ZoneReq where
  now : Nat
  q : List String → Except Unit (List Zone)

/-- Record of one zone resolution: cache state before, request time, remote
probes performed, result, cache state after. -/
structure ResolutionLog where
  pre : CFState
  now : Nat
  probes : List (List String)
  res : Except String Zone
  post : CFState

/-- A sequence of zone resolutions on one updater, threading the cache state. -/
def runResolutions (h : List String) (st : CFState) :
    List ZoneReq → List ResolutionLog
  | [] => []
  | r :: rs =>
    let t := get_zone r.q h r.now st
    { pre := st, now := r.now, probes := t.1, res := t.2.1, post := t.2.2 } ::
      runResolutions h t.2.2 rs

/-- Values flowing through a filter pipeline at pull time, distinguishing the
Python runtime kinds the filters actually produce: a list object, a lazy
filter iterator (as returned by the built-in filter), and a bare
AddressUpdate object (as returned by list subscription). -/
inductive PyVal where
  | pylist : List Addr → PyVal
  | pyiter : List Addr → PyVal
  | pyaddr : Addr → PyVal
deriving DecidableEq, Repr

/-- Exceptions a filter application can raise. -/
inductive PyErr where
  | typeError : PyErr
deriving DecidableEq, Repr

/-- Python list indexing with negative indices: addresses(i) after the usual
negative-index shift, or none on IndexError. -/
def pyIndex (xs : List Addr) (i : Int) : Option Addr :=
  let j := if i < 0 then i + xs.length else i
  if 0 ≤ j ∧ j < xs.length then xs.get? j.toNat else none

/-- NthAddressFilter.filter: return addresses(index), catching only
IndexError (which yields an empty list). Subscripting a lazy filter iterator
or a bare object raises TypeError, which the except clause does not catch. On
a successful lookup the bare element is returned, exactly as the source
returns addresses(self.index). -/
def nth_filter (i : Int) : PyVal → Except PyErr PyVal
  | .pylist xs =>
    match pyIndex xs i with
    | some a => .ok (.pyaddr a)
    | none => .ok (.pylist [])
  | .pyiter _ => .error .typeError
  | .pyaddr _ => .error .typeError

/-- FirstAddressFilter.filter: the slice addresses(0:1); slicing a filter
iterator or a bare object raises TypeError. -/
def first_filter : PyVal → Except PyErr PyVal
  | .pylist xs => .ok (.pylist (xs.take 1))
  | .pyiter _ => .error .typeError
  | .pyaddr _ => .error .typeError

/-- LastAddressFilter.filter: the slice addresses(-1:). -/
def last_filter : PyVal → Except PyErr PyVal
  | .pylist xs => .ok (.pylist (xs.drop (xs.length - 1)))
  | .pyiter _ => .error .typeError
  | .pyaddr _ => .error .typeError

/-- IPv6AddressFilter.filter: the built-in filter applied to any iterable,
producing a lazy filter iterator; a bare object is not iterable. -/
def ipv6_filter : PyVal → Except PyErr PyVal
  | .pylist xs => .ok (.pyiter (xs.filter is_ipv6_update))
  | .pyiter xs => .ok (.pyiter (xs.filter is_ipv6_update))
  | .pyaddr _ => .error .typeError

/-- IPv4AddressFilter.filter. -/
def ipv4_filter : PyVal → Except PyErr PyVal
  | .pylist xs => .ok (.pyiter (xs.filter is_ipv4_update))
  | .pyiter xs => .ok (.pyiter (xs.filter is_ipv4_update))
  | .pyaddr _ => .error .typeError

/-- dnsden PrivateAddressFilter is_private predicate: address.is_private for
the two IP families, everything else excluded. -/
def dnsden_is_private : Addr → Bool
  | .v4 ip => ip.isPrivate
  | .v6 ip => ip.isPrivate
  | .other _ => false

/-- dnsden PrivateAddressFilter.filter (materialized to a list; the source
returns a lazy filter iterator over the same elements in the same order). -/
def private_address_filter (xs : List Addr) : List Addr :=
  xs.filter dnsden_is_private

/-- dnsden PublicAddressFilter is_public predicate as written in the source:
for both IP families it returns a.address.is_private (the docstring says the
filter selects public addresses). -/
def dnsden_is_public : Addr → Bool
  | .v4 ip => ip.isPrivate
  | .v6 ip => ip.isPrivate
  | .other _ => false

/-- dnsden PublicAddressFilter.filter. -/
def public_address_filter (xs : List Addr) : List Addr :=
  xs.filter dnsden_is_public

/-- The AddressFilter subclasses of the ddnswolf tree, in the order
find_all_subclasses yields them during registration (module import order is
alphabetical: family, positional, sorting). -/
inductive FilterClass where
  | ipv4f : FilterClass
  | ipv6f : FilterClass
  | nthf : FilterClass
  | firstf : FilterClass
  | lastf : FilterClass
  | sortedf : FilterClass
deriving DecidableEq, Repr

/-- Number of constructor arguments each filter class accepts beyond self:
NthAddressFilter takes an index; every other class inherits the zero-argument
AddressFilter constructor. -/
def ctorArity : FilterClass → Nat
  | .nthf => 1
  | _ => 0

/-- A provider object: an AddressSource, or an AddressFilterProxyProvider
wrapping a constructed filter (class plus constructor arguments) around a
parent provider. -/
inductive Provider where
  | source : List Addr → Provider
  | filtered : FilterClass → List Int → Provider → Provider
deriving DecidableEq, Repr

/-- A value produced while evaluating a subscription expression: a numeric
literal, a provider object, one of the create_this_filter closures, or an
object resolved from the Python builtins namespace (eval falls back to
builtins for names absent from its locals and globals). -/
inductive Val where
  | num : Int → Val
  | provider : Provider → Val
  | filterCtor : FilterClass → Val
  | builtin : String → Val
deriving DecidableEq, Repr

/-- Errors raised while evaluating a subscription expression. -/
inductive EvalErr where
  | nameError : String → EvalErr
  | typeError : String → EvalErr
deriving DecidableEq, Repr

mutual
/-- A subscription expression as the Python eval sees it: a numeric literal,
a bare identifier, or a call of an identifier on an argument list. -/
inductive Expr where
  | lit : Int → Expr
  | ident : String → Expr
  | call : String → ExprList → Expr
/-- Argument list of a call. -/
inductive ExprList where
  | enil : ExprList
  | econs : Expr → ExprList → ExprList
end

mutual
/-- All identifiers an expression uses, bare or in call position. -/
def identsOfExpr : Expr → List String
  | .lit _ => []
  | .ident n => [n]
  | .call n args => n :: identsOfList args
/-- Identifiers used anywhere in an argument list. -/
def identsOfList : ExprList → List String
  | .enil => []
  | .econs e es => identsOfExpr e ++ identsOfList es
end

/-- Extract the integer constructor arguments passed before the parent
provider; a non-numeric constructor argument fails in the constructor. -/
def toIntArgs : List Val → Option (List Int)
  | [] => some []
  | .num k :: rest => (toIntArgs rest).map (fun ks => k :: ks)
  | _ => none

/-- create_this_filter from DDNSWolfApplication.from_config: the last
argument is the parent provider, the preceding ones are constructor
arguments; filter_cls(*filter_args) checks the arity, then as_provider binds
the filter to the parent. Calling with no arguments subscripts an empty
tuple; a wrong arity or a non-integer argument raises in the constructor; a
parent that is not a provider is rejected here (the source defers that fault
to pull time, a path no claim exercises). -/
def applyCtor (c : FilterClass) (argVals : List Val) : Except EvalErr Val :=
  match argVals.getLast? with
  | none => .error (.typeError "IndexError on empty argument tuple")
  | some parentV =>
    let ctorArgs := argVals.dropLast
    if ctorArgs.length = ctorArity c then
      match toIntArgs ctorArgs, parentV with
      | some ints, .provider p => .ok (.provider (.filtered c ints p))
      | some _, _ => .error (.typeError "parent is not a provider")
      | none, _ => .error (.typeError "invalid constructor argument")
    else
      .error (.typeError "wrong number of constructor arguments")

mutual
/-- Python evaluation of a subscription expression. The env argument is the
complete name-resolution chain eval uses (its locals dict, then its globals
into which Python inserts the builtins namespace — see eval_name_scope for
the chain from_config actually builds); a name absent from the whole chain
raises NameError. For a call the callee name is looked up first, then the
arguments are evaluated left to right, then the value is applied; calling a
number or a provider raises TypeError, and calling a builtin function object
on provider arguments raises the TypeError the builtin itself produces (the
builtins the claims exercise, such as len and abs, reject provider
arguments; builtins whose call would succeed are not modelled, and no
theorem depends on one). -/
def evalExpr (env : String → Option Val) : Expr → Except EvalErr Val
  | .lit k => .ok (.num k)
  | .ident n =>
    match env n with
    | some v => .ok v
    | none => .error (.nameError n)
  | .call n args =>
    match env n with
    | none => .error (.nameError n)
    | some fv =>
      match evalList env args with
      | .error e => .error e
      | .ok argVals =>
        match fv with
        | .filterCtor c => applyCtor c argVals
        | .builtin b =>
          .error (.typeError ("builtin " ++ b ++ " rejected its arguments"))
        | _ => .error (.typeError "object is not callable")
/-- Left-to-right evaluation of an argument list, stopping at the first
raised exception. -/
def evalList (env : String → Option Val) : ExprList → Except EvalErr (List Val)
  | .enil => .ok []
  | .econs e es =>
    match evalExpr env e with
    | .error err => .error err
    | .ok v =>
      match evalList env es with
      | .error err => .error err
      | .ok vs => .ok (v :: vs)
end

/-- The filter registration table built in from_config: config_type_name of
every AddressFilter subclass, in registration order. -/
def filter_registration : List (String × FilterClass) :=
  [("ipv4", .ipv4f), ("ipv6", .ipv6f), ("nth", .nthf),
   ("first", .firstf), ("last", .lastf), ("sorted", .sortedf)]

/-- The final value of the filter_cls loop variable after the registration
loop. Each create_this_filter closure defined inside the for loop captures
the loop variable itself, not its value at definition time, so by the time
any subscription expression is evaluated every one of these closures
constructs this one class: the last subclass yielded by
find_all_subclasses, BinaryValueSortAddressFilter. -/
def last_registered_filter : FilterClass := .sortedf

/-- subscription_eval_locals as from_config builds it: the sources dict,
then one entry per registered filter name; a filter entry overwrites a
source of the same name, and every filter entry holds a create_this_filter
closure whose captured filter_cls has ended up as last_registered_filter. -/
def subscription_eval_locals (sources : List (String × Provider)) :
    String → Option Val :=
  fun n =>
    match filter_registration.find? (fun kv => decide (kv.1 = n)) with
    | some _ => some (.filterCtor last_registered_filter)
    | none =>
      (sources.find? (fun kv => decide (kv.1 = n))).map (fun kv => .provider kv.2)

/-- The full name-resolution chain of eval(subscription_str, {},
subscription_eval_locals) in from_config: the locals dict is consulted
first; the globals dict is empty except for the builtins namespace Python
inserts into it before evaluation, so a name registered neither as a source
nor as a filter still resolves when the builtins namespace knows it. The
builtins namespace is an external collaborator, passed as an oracle. -/
def eval_name_scope (sources : List (String × Provider))
    (builtins : String → Option Val) : String → Option Val :=
  fun n =>
    match subscription_eval_locals sources n with
    | some v => some v
    | none => builtins n

/-- Errors escaping the subscription wiring loop of from_config. -/
inductive WireErr where
  | userError : String → WireErr
  | raised : EvalErr → WireErr
deriving DecidableEq, Repr

/-- The message of the DDNSWolfUserException raised for an unresolved name:
Unknown filter or source, followed by the text of the NameError, which names
the identifier. -/
def nameErrorMsg (n : String) : String :=
  "Unknown filter or source: name " ++ n ++ " is not defined"

/-- Wiring of one subscription string in from_config: eval the expression;
a NameError is caught and re-raised as a DDNSWolfUserException naming the
identifier; any other exception propagates as raised. -/
def wire_subscription (env : String → Option Val) (e : Expr) : Except WireErr Val :=
  match evalExpr env e with
  | .ok v => .ok v
  | .error (.nameError n) => .error (.userError (nameErrorMsg n))
  | .error err => .error (.raised err)

/-- The wiring loop over all subscription strings of all updaters: the first
failure propagates out of from_config and aborts startup. -/
def wire_all (env : String → Option Val) : List Expr → Except WireErr (List Val)
  | [] => .ok []
  | e :: es =>
    match wire_subscription env e with
    | .error err => .error err
    | .ok v =>
      match wire_all env es with
      | .error err => .error err
      | .ok vs => .ok (v :: vs)

/- Concrete instances used by the counterexample evaluations and the
witnesses. -/

/-- The address 10.0.0.1: a private, non-global IPv4 address. -/
def addrA4 : Addr := .v4 ⟨0x0a000001, false, true⟩

/-- The address 1.2.3.4: a global, non-private IPv4 address. -/
def pubA : Addr := .v4 ⟨0x01020304, true, false⟩

/-- The address 192.168.0.1: a private, non-global IPv4 address. -/
def privA : Addr := .v4 ⟨0xc0a80001, false, true⟩

/-- The link-local address fe80::1. -/
def addrFe80 : Addr := .v6 ⟨0xfe800000000000000000000000000001, false, true⟩

/-- The address 2001:db8::1, taken as globally routable as the spec example
assumes. -/
def addrDb8a : Addr := .v6 ⟨0x20010db8000000000000000000000001, true, false⟩

/-- The address 2001:db8::2, taken as globally routable as the spec example
assumes. -/
def addrDb8b : Addr := .v6 ⟨0x20010db8000000000000000000000002, true, false⟩

/-- The iface source of the C6 spec example, yielding the three IPv6
addresses in order. -/
def c6_iface : Provider := .source [addrFe80, addrDb8a, addrDb8b]

/-- Eval locals wired by from_config for a configuration whose only source is
iface. -/
def c6_env : String → Option Val := subscription_eval_locals [("iface", c6_iface)]

/-- The subscription expression nth(1, ipv6(iface)). -/
def c6_expr : Expr :=
  .call "nth" (.econs (.lit 1)
    (.econs (.call "ipv6" (.econs (.ident "iface") .enil)) .enil))

/-- The subscription expression foo(iface) with no filter named foo
registered. -/
def c8_expr : Expr := .call "foo" (.econs (.ident "iface") .enil)

/-- A needs_update oracle that raises on every IPv4 address and reports every
other address as needing an update. -/
def exNu : Addr → Except String Bool :=
  fun a => match a with
  | .v4 _ => .error "boom"
  | _ => .ok true

/-- An update oracle that always succeeds. -/
def exUp : Addr → Except String Unit := fun _ => .ok ()

/-- The zone example.com as returned by the registrar. -/
def zoneEx : Zone := ⟨["example", "com"]⟩

/-- The hostname a.b.example.com of the spec example. -/
def hostEx : List String := ["a", "b", "example", "com"]

/-- A registrar that recognizes only the zone example.com and answers every
other name query with the invalid-zone API error. -/
def qEx : List String → Except Unit (List Zone) :=
  fun c =>
    if normalizeName c = normalizeName ["example", "com"] then .ok [zoneEx]
    else .error ()

/-- The same registrar with the invalid-zone signal replaced by an empty
result list. -/
def qEx2 : List String → Except Unit (List Zone) :=
  fun c =>
    if normalizeName c = normalizeName ["example", "com"] then .ok [zoneEx]
    else .ok []

/-- A zone resolution issued at time 0. -/
def req1 : ZoneReq := { now := 0, q := qEx }

/-- A second zone resolution issued 100 seconds later, well within the
freshness window. -/
def req2 : ZoneReq := { now := 100, q := qEx }

/-- A fragment of the Python builtins namespace: the builtin functions len
and abs, which eval resolves although they are registered neither as sources
nor as filters. -/
def pyBuiltinsEx : String → Option Val :=
  fun n =>
    if n = "len" then some (.builtin "len")
    else if n = "abs" then some (.builtin "abs")
    else none

/-- The eval name-resolution scope of from_config for a configuration whose
only source is iface, over the example builtins fragment. -/
def c8_scope : String → Option Val :=
  eval_name_scope [("iface", c6_iface)] pyBuiltinsEx

/- Theorems. First the dedup policy of update_from_subscriptions. -/

theorem replacePref_eq (a c : Addr) :
    replacePref a c = (addrIsGlobal a && !(addrIsGlobal c)) := by
  cases a <;> simp [replacePref, is_ipv4_update, is_ipv6_update, addrIsGlobal]

theorem lookupA_append_single (d : List (AddrKey × Addr)) (ka k : AddrKey) (a : Addr) :
    lookupA (d ++ [(ka, a)]) k =
      match lookupA d k with
      | some c => some c
      | none => if ka = k then some a else none := by
  induction d with
  | nil => simp [lookupA]
  | cons kv rest ih =>
    by_cases hk : kv.1 = k
    · simp [lookupA, hk]
    · simp [lookupA, hk, ih]

theorem lookupA_assocPut_ne (d : List (AddrKey × Addr)) (ka k : AddrKey) (a : Addr)
    (hne : ka ≠ k) : lookupA (assocPut d ka a) k = lookupA d k := by
  induction d with
  | nil => rfl
  | cons kv rest ih =>
    by_cases hk : kv.1 = ka
    · rw [assocPut, if_pos hk, lookupA, lookupA, if_neg hne,
        if_neg (fun hcon : kv.1 = k => hne (hk ▸ hcon))]
    · rw [assocPut, if_neg hk, lookupA, lookupA]
      by_cases hk2 : kv.1 = k
      · rw [if_pos hk2, if_pos hk2]
      · rw [if_neg hk2, if_neg hk2, ih]

theorem lookupA_assocPut_eq (d : List (AddrKey × Addr)) (ka : AddrKey) (a c : Addr)
    (hc : lookupA d ka = some c) : lookupA (assocPut d ka a) ka = some a := by
  induction d with
  | nil => simp [lookupA] at hc
  | cons kv rest ih =>
    by_cases hk : kv.1 = ka
    · rw [assocPut, if_pos hk, lookupA, if_pos rfl]
    · rw [lookupA, if_neg hk] at hc
      rw [assocPut, if_neg hk, lookupA, if_neg hk, ih hc]

theorem lookupA_cleanStep (d : List (AddrKey × Addr)) (a : Addr) (k : AddrKey) :
    lookupA (cleanStep d a) k =
      if addrKey a = k then stepSpec (lookupA d k) a else lookupA d k := by
  unfold cleanStep
  cases hd : lookupA d (addrKey a) with
  | none =>
    rw [lookupA_append_single]
    by_cases hak : addrKey a = k
    · subst hak
      rw [hd, if_pos rfl, if_pos rfl]
      simp [stepSpec, hd]
    · rw [if_neg hak, if_neg hak]
      cases hdk : lookupA d k <;> rfl
  | some kept =>
    dsimp only
    by_cases hr : replacePref a kept
    · rw [if_pos hr]
      by_cases hak : addrKey a = k
      · subst hak
        rw [lookupA_assocPut_eq d _ a kept hd, if_pos rfl, hd]
        have hg : (addrIsGlobal a && !(addrIsGlobal kept)) = true := by
          rw [← replacePref_eq]; exact hr
        simp [stepSpec, hg]
      · rw [lookupA_assocPut_ne d _ k a hak, if_neg hak]
    · rw [if_neg hr]
      by_cases hak : addrKey a = k
      · subst hak
        rw [if_pos rfl, hd]
        have hg : (addrIsGlobal a && !(addrIsGlobal kept)) = false := by
          rw [← replacePref_eq]
          exact Bool.not_eq_true _ ▸ hr
        simp [stepSpec, hg]
      · rw [if_neg hak]

theorem lookupA_foldl_cleanStep (xs : List Addr) (d : List (AddrKey × Addr)) (k : AddrKey) :
    lookupA (xs.foldl cleanStep d) k =
      (xs.filter (fun a => decide (addrKey a = k))).foldl stepSpec (lookupA d k) := by
  induction xs generalizing d with
  | nil => rfl
  | cons a rest ih =>
    by_cases hak : addrKey a = k
    · simp only [List.foldl_cons, List.filter_cons, hak, decide_True, if_true]
      rw [ih, lookupA_cleanStep, if_pos hak]
    · have hdec : decide (addrKey a = k) = false := by simp [hak]
      simp only [List.foldl_cons, List.filter_cons, hdec, Bool.false_eq_true, if_false]
      rw [ih, lookupA_cleanStep, if_neg hak]

theorem keys_assocPut (d : List (AddrKey × Addr)) (ka : AddrKey) (a : Addr) :
    (assocPut d ka a).map Prod.fst = d.map Prod.fst := by
  induction d with
  | nil => rfl
  | cons kv rest ih =>
    by_cases hk : kv.1 = ka
    · rw [assocPut, if_pos hk, List.map_cons, List.map_cons, ← hk]
    · rw [assocPut, if_neg hk, List.map_cons, List.map_cons, ih]

theorem lookupA_eq_none_iff (d : List (AddrKey × Addr)) (k : AddrKey) :
    lookupA d k = none ↔ k ∉ d.map Prod.fst := by
  induction d with
  | nil => simp [lookupA]
  | cons kv rest ih =>
    by_cases hk : kv.1 = k
    · simp [lookupA, hk]
    · rw [lookupA, if_neg hk, ih, List.map_cons]
      simp only [List.mem_cons]
      constructor
      · intro hnone hcon
        rcases hcon with hcon | hcon
        · exact hk hcon.symm
        · exact hnone hcon
      · intro hnot hcon
        exact hnot (Or.inr hcon)

theorem keys_cleanStep (d : List (AddrKey × Addr)) (a : Addr) :
    (cleanStep d a).map Prod.fst = d.map Prod.fst ∨
      ((cleanStep d a).map Prod.fst = d.map Prod.fst ++ [addrKey a] ∧
        lookupA d (addrKey a) = none) := by
  unfold cleanStep
  cases hd : lookupA d (addrKey a) with
  | none => right; simp [hd]
  | some kept =>
    by_cases hr : replacePref a kept
    · left; simp [hr, keys_assocPut]
    · left; simp [hr]

theorem nodup_keys_foldl (xs : List Addr) (d : List (AddrKey × Addr))
    (hd : (d.map Prod.fst).Nodup) :
    ((xs.foldl cleanStep d).map Prod.fst).Nodup := by
  induction xs generalizing d with
  | nil => exact hd
  | cons a rest ih =>
    simp only [List.foldl_cons]
    refine ih (cleanStep d a) ?_
    rcases keys_cleanStep d a with hsame | ⟨happ, hnone⟩
    · rw [hsame]; exact hd
    · rw [happ]
      have hfresh : addrKey a ∉ d.map Prod.fst := (lookupA_eq_none_iff d _).mp hnone
      simp [List.nodup_append, hd, hfresh]

/-- C1: within one updater cycle, after all subscriptions are concatenated
into one sequence, the cleaned_addresses dict of update_from_subscriptions
holds at most one address per concrete address family, and the address held
for each family is exactly the one characterized by the spec: the first
address seen for the family, where a later address of the family replaces the
kept one exactly when the later one is globally routable and the kept one is
not (first seen wins in every other case). -/
theorem dedup_per_family (xs : List Addr) (k : AddrKey) :
    lookupA (cleaned_addresses xs) k =
      keptForFamilySpec (xs.filter (fun a => decide (addrKey a = k)))
    ∧ ((cleaned_addresses xs).map Prod.fst).Nodup := by
  constructor
  · have h := lookupA_foldl_cleanStep xs [] k
    simpa [cleaned_addresses, keptForFamilySpec, lookupA] using h
  · exact nodup_keys_foldl xs [] (by simp)

theorem updateLoop_eq_map (nu : Addr → Except String Bool)
    (up : Addr → Except String Unit) (xs : List Addr) :
    updateLoop nu up xs = xs.map (fun a => (a, processOne nu up a)) := by
  induction xs with
  | nil => rfl
  | cons a rest ih => rw [updateLoop, ih, List.map_cons]

/-- C2: within one cycle, when the pull phase succeeds, the per-address loop
records for every surviving address the outcome computed from that address
alone: every address of the cleaned list appears, in order, paired with its
own processOne result, so a failure recorded for one address never prevents
the needs_update check and update of any later address of the same cycle. -/
theorem cycle_failure_isolation (pulls : List (Except String (List Addr)))
    (nu : Addr → Except String Bool) (up : Addr → Except String Unit)
    (res : List (Addr × Outcome))
    (hok : update_from_subscriptions pulls nu up = .ok res) :
    ∃ lists, collectPulls pulls = .ok lists ∧
      res = ((cleaned_addresses lists.flatten).map Prod.snd).map
          (fun a => (a, processOne nu up a)) ∧
      ∀ i : Nat, res.get? i =
        (((cleaned_addresses lists.flatten).map Prod.snd).get? i).map
          (fun a => (a, processOne nu up a)) := by
  unfold update_from_subscriptions at hok
  cases hc : collectPulls pulls with
  | error e => rw [hc] at hok; cases hok
  | ok lists =>
    rw [hc] at hok
    refine ⟨lists, rfl, ?_, ?_⟩
    · cases hok
      exact updateLoop_eq_map nu up _
    · intro i
      cases hok
      rw [updateLoop_eq_map nu up _]
      simp [List.get?_eq_getElem?, List.getElem?_map]

/-- C2 witness: a pull yields a failing IPv4 address followed by an IPv6
address; the IPv4 check raises, yet the IPv6 address is still checked and
updated in the same cycle. -/
theorem cycle_failure_isolation_witness :
    ∃ lists, collectPulls [Except.ok [addrA4, addrDb8a]] = .ok lists ∧
      [(addrA4, Outcome.failed "boom"), (addrDb8a, Outcome.updated)] =
        ((cleaned_addresses lists.flatten).map Prod.snd).map
          (fun a => (a, processOne exNu exUp a)) ∧
      ∀ i : Nat,
        ([(addrA4, Outcome.failed "boom"), (addrDb8a, Outcome.updated)] :
            List (Addr × Outcome)).get? i =
          (((cleaned_addresses lists.flatten).map Prod.snd).get? i).map
            (fun a => (a, processOne exNu exUp a)) :=
  cycle_failure_isolation [Except.ok [addrA4, addrDb8a]] exNu exUp
    [(addrA4, Outcome.failed "boom"), (addrDb8a, Outcome.updated)] rfl

/-- C3: the guard of the default DynamicDNSUpdater.needs_update is inverted
(not isinstance IPv4 or isinstance IPv6), so an IPv6 candidate always raises
the unsupported-address error before any DNS lookup, for every resolver; the
claim and the docstring of the method say IPv4 and IPv6 are both supported
and never trigger that error. -/
theorem needs_update_rejects_ipv6 :
    ∀ resolve : RdType → Except String (List DnsAnswer),
      needs_update resolve addrDb8a = .error "Unsupported address update" :=
  fun _ => rfl

theorem collectPulls_error (pre rest : List (Except String (List Addr))) (e : String)
    (hpre : ∀ p ∈ pre, ∃ xs, p = .ok xs) :
    collectPulls (pre ++ .error e :: rest) = .error e := by
  induction pre with
  | nil => rfl
  | cons p ps ih =>
    obtain ⟨xs, hxs⟩ := hpre p (List.mem_cons_self p ps)
    subst hxs
    have ht := ih (fun p2 hp2 => hpre p2 (List.mem_cons_of_mem _ hp2))
    rw [List.cons_append, collectPulls, ht]

/-- C10: the pull phase of update_from_subscriptions runs outside the
per-address try block, so when any subscription pull raises, the exception
propagates out of the whole cycle (the cycle returns that very error), and no
address is checked or updated: the result does not depend on the needs_update
and update oracles at all. -/
theorem pull_failure_aborts_cycle (pre rest : List (Except String (List Addr)))
    (e : String) (nu : Addr → Except String Bool) (up : Addr → Except String Unit)
    (hpre : ∀ p ∈ pre, ∃ xs, p = .ok xs) :
    update_from_subscriptions (pre ++ .error e :: rest) nu up = .error e
    ∧ ∀ (nu2 : Addr → Except String Bool) (up2 : Addr → Except String Unit),
        update_from_subscriptions (pre ++ .error e :: rest) nu up
          = update_from_subscriptions (pre ++ .error e :: rest) nu2 up2 := by
  have hc := collectPulls_error pre rest e hpre
  constructor
  · unfold update_from_subscriptions
    rw [hc]
  · intro nu2 up2
    unfold update_from_subscriptions
    rw [hc]

/-- C10 witness: the middle of three subscriptions raises during its pull;
the whole cycle fails with that error even though the first pull succeeded
and the third would have succeeded. -/
theorem pull_failure_aborts_cycle_witness :
    update_from_subscriptions
        [Except.ok [pubA], Except.error "network down", Except.ok [privA]]
        exNu exUp = .error "network down"
    ∧ ∀ (nu2 : Addr → Except String Bool) (up2 : Addr → Except String Unit),
        update_from_subscriptions
            [Except.ok [pubA], Except.error "network down", Except.ok [privA]]
            exNu exUp
          = update_from_subscriptions
              [Except.ok [pubA], Except.error "network down", Except.ok [privA]]
              nu2 up2 :=
  pull_failure_aborts_cycle [Except.ok [pubA]] [Except.ok [privA]] "network down"
    exNu exUp
    (fun p hp => ⟨[pubA], by simpa using hp⟩)

theorem getZoneSearch_found (q : List String → Except Unit (List Zone))
    (h : List String) (z : Zone) (hm : matchingZone q h = some z) :
    getZoneSearch q h = ([h], .ok z) := by
  cases h with
  | nil => simp [getZoneSearch, hm]
  | cons l rest => simp [getZoneSearch, hm]

theorem getZoneSearch_nil_none (q : List String → Except Unit (List Zone))
    (hm : matchingZone q [] = none) :
    getZoneSearch q [] = ([[]], .error noZoneMsg) := by
  simp [getZoneSearch, hm]

theorem getZoneSearch_cons_none (q : List String → Except Unit (List Zone))
    (l : String) (rest : List String) (hm : matchingZone q (l :: rest) = none) :
    getZoneSearch q (l :: rest) =
      ((l :: rest) :: (getZoneSearch q rest).1, (getZoneSearch q rest).2) := by
  simp [getZoneSearch, hm]

theorem getZoneSearch_probes_ne_nil (q : List String → Except Unit (List Zone))
    (h : List String) : (getZoneSearch q h).1 ≠ [] := by
  cases h with
  | nil =>
    cases hm : matchingZone q [] with
    | some z => rw [getZoneSearch_found q [] z hm]; simp
    | none => rw [getZoneSearch_nil_none q hm]; simp
  | cons l rest =>
    cases hm : matchingZone q (l :: rest) with
    | some z => rw [getZoneSearch_found q _ z hm]; simp
    | none => rw [getZoneSearch_cons_none q l rest hm]; simp

theorem getZoneSearch_probe_get (q : List String → Except Unit (List Zone))
    (h : List String) :
    ∀ i, i < (getZoneSearch q h).1.length →
      (getZoneSearch q h).1.get? i = some (h.drop i) := by
  induction h with
  | nil =>
    intro i hi
    cases hm : matchingZone q [] with
    | some z =>
      rw [getZoneSearch_found q [] z hm] at hi ⊢
      simp at hi
      subst hi
      simp
    | none =>
      rw [getZoneSearch_nil_none q hm] at hi ⊢
      simp at hi
      subst hi
      simp
  | cons l rest ih =>
    intro i hi
    cases hm : matchingZone q (l :: rest) with
    | some z =>
      rw [getZoneSearch_found q _ z hm] at hi ⊢
      simp at hi
      subst hi
      simp
    | none =>
      rw [getZoneSearch_cons_none q l rest hm] at hi ⊢
      cases i with
      | zero => simp
      | succ j =>
        simp only [List.length_cons, Nat.succ_lt_succ_iff] at hi
        simpa using ih j hi

theorem getZoneSearch_nonlast_no_match (q : List String → Except Unit (List Zone))
    (h : List String) :
    ∀ i, i + 1 < (getZoneSearch q h).1.length → matchingZone q (h.drop i) = none := by
  induction h with
  | nil =>
    intro i hi
    cases hm : matchingZone q [] with
    | some z => rw [getZoneSearch_found q [] z hm] at hi; simp at hi
    | none => rw [getZoneSearch_nil_none q hm] at hi; simp at hi
  | cons l rest ih =>
    intro i hi
    cases hm : matchingZone q (l :: rest) with
    | some z => rw [getZoneSearch_found q _ z hm] at hi; simp at hi
    | none =>
      rw [getZoneSearch_cons_none q l rest hm] at hi
      simp only [List.length_cons, Nat.succ_lt_succ_iff] at hi
      cases i with
      | zero => simpa using hm
      | succ j =>
        have hj : j + 1 < (getZoneSearch q rest).1.length := hi
        simpa using ih j hj

theorem getZoneSearch_ok_match (q : List String → Except Unit (List Zone))
    (h : List String) :
    ∀ z, (getZoneSearch q h).2 = .ok z →
      matchingZone q (h.drop ((getZoneSearch q h).1.length - 1)) = some z := by
  induction h with
  | nil =>
    intro z hz
    cases hm : matchingZone q [] with
    | some z2 =>
      rw [getZoneSearch_found q [] z2 hm] at hz ⊢
      simp at hz ⊢
      rw [← hz]
      exact hm
    | none =>
      rw [getZoneSearch_nil_none q hm] at hz
      simp at hz
  | cons l rest ih =>
    intro z hz
    cases hm : matchingZone q (l :: rest) with
    | some z2 =>
      rw [getZoneSearch_found q _ z2 hm] at hz ⊢
      simp at hz ⊢
      rw [← hz]
      exact hm
    | none =>
      rw [getZoneSearch_cons_none q l rest hm] at hz ⊢
      have h2 := ih z hz
      have hne := getZoneSearch_probes_ne_nil q rest
      obtain ⟨m, hm2⟩ : ∃ m, (getZoneSearch q rest).1.length = m + 1 := by
        cases he : (getZoneSearch q rest).1 with
        | nil => exact absurd he hne
        | cons x xs => exact ⟨xs.length, by simp [he]⟩
      simp only [List.length_cons, hm2]
      simp only [hm2] at h2
      simpa using h2

theorem getZoneSearch_error_iff (q : List String → Except Unit (List Zone))
    (h : List String) :
    (getZoneSearch q h).2 = .error noZoneMsg ↔
      ∀ i, matchingZone q (h.drop i) = none := by
  induction h with
  | nil =>
    constructor
    · intro he i
      cases hm : matchingZone q [] with
      | some z => rw [getZoneSearch_found q [] z hm] at he; simp at he
      | none => simpa using hm
    · intro hall
      have h0 := hall 0
      simp at h0
      rw [getZoneSearch_nil_none q h0]
  | cons l rest ih =>
    cases hm : matchingZone q (l :: rest) with
    | some z =>
      constructor
      · intro he
        rw [getZoneSearch_found q _ z hm] at he
        simp at he
      · intro hall
        have h0 := hall 0
        simp [hm] at h0
    | none =>
      rw [getZoneSearch_cons_none q l rest hm]
      constructor
      · intro he i
        cases i with
        | zero => simpa using hm
        | succ j => simpa using (ih.mp he) j
      · intro hall
        exact ih.mpr (fun j => by simpa using hall (j + 1))

theorem getZoneSearch_error_length (q : List String → Except Unit (List Zone))
    (h : List String) :
    (getZoneSearch q h).2 = .error noZoneMsg →
      (getZoneSearch q h).1.length = h.length + 1 := by
  induction h with
  | nil =>
    intro he
    cases hm : matchingZone q [] with
    | some z => rw [getZoneSearch_found q [] z hm] at he; simp at he
    | none => rw [getZoneSearch_nil_none q hm]; simp
  | cons l rest ih =>
    intro he
    cases hm : matchingZone q (l :: rest) with
    | some z => rw [getZoneSearch_found q _ z hm] at he; simp at he
    | none =>
      rw [getZoneSearch_cons_none q l rest hm] at he ⊢
      have := ih he
      simp [this]

theorem getZoneSearch_congr (q q2 : List String → Except Unit (List Zone))
    (h : List String) (hq : ∀ c, matchingZone q c = matchingZone q2 c) :
    getZoneSearch q h = getZoneSearch q2 h := by
  induction h with
  | nil =>
    cases hm : matchingZone q2 [] with
    | some z => rw [getZoneSearch_found q [] z ((hq []).trans hm),
        getZoneSearch_found q2 [] z hm]
    | none => rw [getZoneSearch_nil_none q ((hq []).trans hm),
        getZoneSearch_nil_none q2 hm]
  | cons l rest ih =>
    cases hm : matchingZone q2 (l :: rest) with
    | some z => rw [getZoneSearch_found q _ z ((hq _).trans hm),
        getZoneSearch_found q2 _ z hm]
    | none => rw [getZoneSearch_cons_none q l rest ((hq _).trans hm),
        getZoneSearch_cons_none q2 l rest hm, ih]

theorem matchingZone_error_as_empty (q q2 : List String → Except Unit (List Zone))
    (hc : ∀ c, (q c = .error () ∧ q2 c = .ok []) ∨ q c = q2 c) :
    ∀ c, matchingZone q c = matchingZone q2 c := by
  intro c
  rcases hc c with ⟨h1, h2⟩ | he
  · rw [matchingZone, matchingZone, h1, h2]
    simp
  · rw [matchingZone, matchingZone, he]

theorem get_zone_stale (q : List String → Except Unit (List Zone)) (h : List String)
    (now : Nat) (st : CFState)
    (hstale : st.cfZone = none ∨ st.lastUpdate + fourHours ≤ now) :
    get_zone q h now st = getZoneRemote q h now st := by
  unfold get_zone
  cases hz : st.cfZone with
  | none => rfl
  | some z =>
    rcases hstale with hn | hle
    · rw [hz] at hn; cases hn
    · have hnot : ¬ (st.lastUpdate + fourHours > now) := by omega
      dsimp only
      rw [if_neg hnot]

theorem getZoneRemote_ok (q : List String → Except Unit (List Zone)) (h : List String)
    (now : Nat) (st : CFState) (pr : List (List String)) (z : Zone) (st2 : CFState)
    (hr : getZoneRemote q h now st = (pr, .ok z, st2)) :
    pr = (getZoneSearch q h).1 ∧ (getZoneSearch q h).2 = .ok z ∧
      st2 = { cfZone := some z, lastUpdate := now } := by
  unfold getZoneRemote at hr
  cases hs : getZoneSearch q h with
  | mk probes res =>
    rw [hs] at hr
    cases res with
    | ok z0 =>
      dsimp only at hr
      injection hr with h1 hrest
      injection hrest with h2 h3
      injection h2 with hz0
      refine ⟨h1.symm, ?_, ?_⟩
      · dsimp only
        rw [hz0]
      · rw [← h3, hz0]
        rfl
    | error e =>
      dsimp only at hr
      injection hr with h1 hrest
      injection hrest with h2 h3
      cases h2

/-- C4: on a cache miss, the Cloudflare zone resolver probes candidate names
in strictly descending order starting from the full configured hostname,
stripping the leftmost label after each non-matching probe; it stops at the
first candidate for which the registrar returns a zone whose name matches
under the case-insensitive, root-separator-ignoring comparison, returning the
first such zone and caching it with the request time; a provider invalid-zone
signal behaves exactly like an empty zone listing (the ascent continues); and
the could-not-find-zone error is raised exactly when no candidate down to and
including the root matches, after the full ascent has been probed. -/
theorem zone_resolution_ascent (q : List String → Except Unit (List Zone))
    (h : List String) :
    ((getZoneSearch q h).1 ≠ []
      ∧ ∀ i, i < (getZoneSearch q h).1.length →
          (getZoneSearch q h).1.get? i = some (h.drop i))
    ∧ (∀ i, i + 1 < (getZoneSearch q h).1.length → matchingZone q (h.drop i) = none)
    ∧ (∀ z, (getZoneSearch q h).2 = .ok z →
        matchingZone q (h.drop ((getZoneSearch q h).1.length - 1)) = some z)
    ∧ ((getZoneSearch q h).2 = .error noZoneMsg ↔
        ∀ i, matchingZone q (h.drop i) = none)
    ∧ ((getZoneSearch q h).2 = .error noZoneMsg →
        (getZoneSearch q h).1.length = h.length + 1)
    ∧ (∀ q2, (∀ c, (q c = .error () ∧ q2 c = .ok []) ∨ q c = q2 c) →
        getZoneSearch q h = getZoneSearch q2 h)
    ∧ (∀ now st, st.cfZone = none ∨ st.lastUpdate + fourHours ≤ now →
        ∀ pr z st2, get_zone q h now st = (pr, .ok z, st2) →
          pr = (getZoneSearch q h).1 ∧ (getZoneSearch q h).2 = .ok z ∧
            st2 = { cfZone := some z, lastUpdate := now }) := by
  refine ⟨⟨getZoneSearch_probes_ne_nil q h, getZoneSearch_probe_get q h⟩,
    getZoneSearch_nonlast_no_match q h, getZoneSearch_ok_match q h,
    getZoneSearch_error_iff q h, getZoneSearch_error_length q h,
    fun q2 hq2 => getZoneSearch_congr q q2 h (matchingZone_error_as_empty q q2 hq2),
    ?_⟩
  intro now st hstale pr z st2 hgz
  rw [get_zone_stale q h now st hstale] at hgz
  exact getZoneRemote_ok q h now st pr z st2 hgz

/-- C4 witness: for hostname a.b.example.com against a registrar recognizing
only example.com, the ascent probes a.b.example.com, then b.example.com, then
stops at example.com; the registrar invalid-zone signal behaves like an empty
listing; and resolving on an empty cache at time 0 caches the found zone with
timestamp 0. -/
theorem zone_resolution_ascent_witness :
    (getZoneSearch qEx hostEx).1.get? 2 = some (hostEx.drop 2)
    ∧ matchingZone qEx (hostEx.drop 0) = none
    ∧ matchingZone qEx (hostEx.drop ((getZoneSearch qEx hostEx).1.length - 1))
        = some zoneEx
    ∧ getZoneSearch qEx hostEx = getZoneSearch qEx2 hostEx
    ∧ ([["a", "b", "example", "com"], ["b", "example", "com"], ["example", "com"]]
          = (getZoneSearch qEx hostEx).1
        ∧ (getZoneSearch qEx hostEx).2 = .ok zoneEx
        ∧ ({ cfZone := some zoneEx, lastUpdate := 0 } : CFState)
            = { cfZone := some zoneEx, lastUpdate := 0 }) :=
  ⟨(zone_resolution_ascent qEx hostEx).1.2 2 (by decide),
   (zone_resolution_ascent qEx hostEx).2.1 0 (by decide),
   (zone_resolution_ascent qEx hostEx).2.2.1 zoneEx rfl,
   (zone_resolution_ascent qEx hostEx).2.2.2.2.2.1 qEx2
     (fun c => by
       by_cases hc : normalizeName c = normalizeName ["example", "com"]
       · right
         simp [qEx, qEx2, hc]
       · left
         constructor <;> simp [qEx, qEx2, hc]),
   (zone_resolution_ascent qEx hostEx).2.2.2.2.2.2 0 { cfZone := none, lastUpdate := 0 }
     (Or.inl rfl)
     [["a", "b", "example", "com"], ["b", "example", "com"], ["example", "com"]]
     zoneEx { cfZone := some zoneEx, lastUpdate := 0 } rfl⟩

theorem get_zone_fresh (q : List String → Except Unit (List Zone)) (h : List String)
    (now : Nat) (st : CFState) (z : Zone) (hz : st.cfZone = some z)
    (hfresh : now < st.lastUpdate + fourHours) :
    get_zone q h now st = ([], .ok z, st) := by
  unfold get_zone
  rw [hz]
  dsimp only
  rw [if_pos (by omega)]

theorem get_zone_stale_probes (q : List String → Except Unit (List Zone))
    (h : List String) (now : Nat) (st : CFState)
    (hstale : st.lastUpdate + fourHours ≤ now) :
    (get_zone q h now st).1 ≠ [] := by
  rw [get_zone_stale q h now st (Or.inr hstale)]
  have hne := getZoneSearch_probes_ne_nil q h
  unfold getZoneRemote
  cases hs : getZoneSearch q h with
  | mk probes res =>
    rw [hs] at hne
    cases res with
    | ok z => dsimp only; exact hne
    | error e => dsimp only; exact hne

theorem getZoneRemote_caches (q : List String → Except Unit (List Zone))
    (h : List String) (now : Nat) (st : CFState) (z : Zone)
    (hok : (getZoneRemote q h now st).2.1 = .ok z) :
    (getZoneRemote q h now st).2.2 = { cfZone := some z, lastUpdate := now } := by
  unfold getZoneRemote at hok ⊢
  cases hs : getZoneSearch q h with
  | mk probes res =>
    rw [hs] at hok
    cases res with
    | ok z0 =>
      dsimp only at hok ⊢
      injection hok with h1
      rw [h1]
      rfl
    | error e =>
      dsimp only at hok
      cases hok

theorem get_zone_caches (q : List String → Except Unit (List Zone)) (h : List String)
    (now : Nat) (st : CFState) (hpr : (get_zone q h now st).1 ≠ []) (z : Zone)
    (hok : (get_zone q h now st).2.1 = .ok z) :
    (get_zone q h now st).2.2 = { cfZone := some z, lastUpdate := now } := by
  unfold get_zone at hpr hok ⊢
  cases hz : st.cfZone with
  | some z0 =>
    rw [hz] at hpr hok
    dsimp only at hpr hok ⊢
    by_cases hfr : st.lastUpdate + fourHours > now
    · rw [if_pos hfr] at hpr
      exact absurd rfl hpr
    · rw [if_neg hfr] at hok ⊢
      exact getZoneRemote_caches q h now st z hok
  | none =>
    rw [hz] at hok
    dsimp only at hok ⊢
    exact getZoneRemote_caches q h now st z hok

/-- C5: in every sequence of zone resolutions on one updater, a resolution
issued while a zone is cached and less than four hours have elapsed since it
was cached returns the cached zone with no remote probe and leaves the cache
untouched; a resolution issued once four hours or more have elapsed performs
the remote ascent again (at least one probe); and whenever a resolution that
probed remotely succeeds, the zone it found is cached with the last-refreshed
timestamp set to the time of that resolution. -/
theorem zone_cache_freshness (h : List String) (st0 : CFState) (reqs : List ZoneReq)
    (lg : ResolutionLog) (hmem : lg ∈ runResolutions h st0 reqs) :
    (∀ z, lg.pre.cfZone = some z → lg.now < lg.pre.lastUpdate + fourHours →
      lg.res = .ok z ∧ lg.probes = [] ∧ lg.post = lg.pre)
    ∧ (lg.pre.lastUpdate + fourHours ≤ lg.now → lg.probes ≠ [])
    ∧ (lg.probes ≠ [] → ∀ z, lg.res = .ok z →
        lg.post = { cfZone := some z, lastUpdate := lg.now }) := by
  induction reqs generalizing st0 with
  | nil => cases hmem
  | cons r rs ih =>
    rw [runResolutions] at hmem
    rcases List.mem_cons.mp hmem with heq | htail
    · subst heq
      refine ⟨?_, ?_, ?_⟩
      · intro z hz hfresh
        dsimp only at hz hfresh ⊢
        have hstep := get_zone_fresh r.q h r.now st0 z hz hfresh
        rw [hstep]
        exact ⟨rfl, rfl, rfl⟩
      · intro hstale
        dsimp only at hstale ⊢
        exact get_zone_stale_probes r.q h r.now st0 hstale
      · intro hpr z hok
        dsimp only at hpr hok ⊢
        exact get_zone_caches r.q h r.now st0 hpr z hok
    · exact ih _ htail

/-- C5 witness: a first resolution at time 0 fills the empty cache by probing
remotely; a second resolution 100 seconds later, within the freshness window,
returns the cached zone with no probe and leaves the cache unchanged. -/
theorem zone_cache_freshness_witness :
    ∃ lg : ResolutionLog,
      lg ∈ runResolutions hostEx ⟨none, 0⟩ [req1, req2]
      ∧ lg.res = .ok zoneEx ∧ lg.probes = [] ∧ lg.post = lg.pre := by
  have hrun : runResolutions hostEx ⟨none, 0⟩ [req1, req2]
      = [⟨⟨none, 0⟩, 0,
          [["a", "b", "example", "com"], ["b", "example", "com"],
            ["example", "com"]], .ok zoneEx, ⟨some zoneEx, 0⟩⟩,
         ⟨⟨some zoneEx, 0⟩, 100, [], .ok zoneEx, ⟨some zoneEx, 0⟩⟩] := rfl
  have hmem : (⟨⟨some zoneEx, 0⟩, 100, [], .ok zoneEx, ⟨some zoneEx, 0⟩⟩ :
      ResolutionLog) ∈ runResolutions hostEx ⟨none, 0⟩ [req1, req2] := by
    rw [hrun]
    exact List.mem_cons_of_mem _ (List.mem_cons_self _ _)
  exact ⟨_, hmem,
    (zone_cache_freshness hostEx ⟨none, 0⟩ [req1, req2] _ hmem).1 zoneEx rfl
      (by decide)⟩

/-- C6: evaluating the subscription expression nth(1, ipv6(iface)) through
the wiring of from_config does not produce a provider at all: every filter
name in the eval locals holds a create_this_filter closure whose captured
filter_cls variable has ended up, after the registration loop, as the last
registered filter class, whose constructor takes no index argument, so the
outer call raises a TypeError at wiring time; the claim expects a provider
whose pull yields 2001:db8::1. (Independently, even under the intended
binding, NthAddressFilter.filter subscripts the lazy iterator produced by the
ipv6 filter, raising a TypeError at pull time, and on a list input it returns
the bare element instead of a list.) -/
theorem nth_ipv6_expr_wiring_fails :
    evalExpr c6_env c6_expr
      = .error (.typeError "wrong number of constructor arguments") := rfl

/-- C7: evaluated on the one-element list input, the nth filter with index 0
returns the bare element while the first filter returns the one-element list,
and likewise for index -1 against the last filter, so the claimed
equivalences fail on every nonempty list; on the empty list the nth filter
does return the empty list for any index, as claimed. -/
theorem nth_filter_not_first_last :
    nth_filter 0 (.pylist [pubA]) = .ok (.pyaddr pubA)
    ∧ first_filter (.pylist [pubA]) = .ok (.pylist [pubA])
    ∧ nth_filter (-1) (.pylist [pubA]) = .ok (.pyaddr pubA)
    ∧ last_filter (.pylist [pubA]) = .ok (.pylist [pubA])
    ∧ nth_filter 0 (.pylist [pubA]) ≠ first_filter (.pylist [pubA])
    ∧ nth_filter (-1) (.pylist [pubA]) ≠ last_filter (.pylist [pubA])
    ∧ nth_filter 5 (.pylist []) = .ok (.pylist [])
    ∧ nth_filter (-3) (.pylist []) = .ok (.pylist []) := by
  refine ⟨rfl, rfl, rfl, rfl, ?_, ?_, rfl, rfl⟩
  · intro hcon
    have hcon2 : (Except.ok (PyVal.pyaddr pubA) : Except PyErr PyVal)
        = .ok (.pylist [pubA]) := hcon
    injection hcon2 with h3
    exact PyVal.noConfusion h3
  · intro hcon
    have hcon2 : (Except.ok (PyVal.pyaddr pubA) : Except PyErr PyVal)
        = .ok (.pylist [pubA]) := hcon
    injection hcon2 with h3
    exact PyVal.noConfusion h3

/-- C9: the is_public predicate of the dnsden PublicAddressFilter returns
a.address.is_private for both IP families, so the public filter keeps exactly
the private addresses: on a private plus a public IPv4 address it keeps the
private one and drops the public one, behaving identically to the private
filter, while its docstring and the claim say it keeps the non-private
addresses. -/
theorem public_filter_keeps_private :
    public_address_filter [privA, pubA] = [privA]
    ∧ private_address_filter [privA, pubA] = [privA]
    ∧ public_address_filter [privA, pubA] = private_address_filter [privA, pubA] :=
  ⟨rfl, rfl, rfl⟩

theorem applyCtor_no_nameError (c : FilterClass) (vals : List Val) (n : String) :
    applyCtor c vals ≠ .error (.nameError n) := by
  intro hcon
  unfold applyCtor at hcon
  split at hcon
  · simp at hcon
  · dsimp only at hcon
    split at hcon
    · split at hcon <;> simp at hcon
    · simp at hcon

mutual
theorem evalExpr_nameError_sound (env : String → Option Val) :
    ∀ (e : Expr) (n : String), evalExpr env e = .error (.nameError n) →
      env n = none ∧ n ∈ identsOfExpr e
  | Expr.lit k, n, hcon => by
    rw [evalExpr] at hcon
    cases hcon
  | Expr.ident m, n, hcon => by
    rw [evalExpr] at hcon
    cases hm : env m with
    | some v =>
      rw [hm] at hcon
      dsimp only at hcon
      cases hcon
    | none =>
      rw [hm] at hcon
      dsimp only at hcon
      injection hcon with h1
      injection h1 with h2
      subst h2
      exact ⟨hm, by rw [identsOfExpr]; exact List.mem_singleton.mpr rfl⟩
  | Expr.call f args, n, hcon => by
    rw [evalExpr] at hcon
    cases hf : env f with
    | none =>
      rw [hf] at hcon
      dsimp only at hcon
      injection hcon with h1
      injection h1 with h2
      subst h2
      exact ⟨hf, by rw [identsOfExpr]; exact List.mem_cons_self _ _⟩
    | some fv =>
      rw [hf] at hcon
      dsimp only at hcon
      cases hl : evalList env args with
      | error err =>
        rw [hl] at hcon
        dsimp only at hcon
        injection hcon with h1
        subst h1
        have hrec := evalList_nameError_sound env args n hl
        refine ⟨hrec.1, ?_⟩
        rw [identsOfExpr]
        exact List.mem_cons_of_mem _ hrec.2
      | ok vals =>
        rw [hl] at hcon
        dsimp only at hcon
        cases fv with
        | filterCtor c => exact absurd hcon (applyCtor_no_nameError c vals n)
        | builtin b =>
          dsimp only at hcon
          injection hcon with h1
          exact EvalErr.noConfusion h1
        | num k =>
          dsimp only at hcon
          injection hcon with h1
          exact EvalErr.noConfusion h1
        | provider p =>
          dsimp only at hcon
          injection hcon with h1
          exact EvalErr.noConfusion h1
theorem evalList_nameError_sound (env : String → Option Val) :
    ∀ (es : ExprList) (n : String), evalList env es = .error (.nameError n) →
      env n = none ∧ n ∈ identsOfList es
  | ExprList.enil, n, hcon => by
    rw [evalList] at hcon
    cases hcon
  | ExprList.econs e es, n, hcon => by
    rw [evalList] at hcon
    cases he : evalExpr env e with
    | error err =>
      rw [he] at hcon
      dsimp only at hcon
      injection hcon with h1
      subst h1
      have hrec := evalExpr_nameError_sound env e n he
      refine ⟨hrec.1, ?_⟩
      rw [identsOfList]
      exact List.mem_append_left _ hrec.2
    | ok v =>
      rw [he] at hcon
      dsimp only at hcon
      cases ht : evalList env es with
      | error err =>
        rw [ht] at hcon
        dsimp only at hcon
        injection hcon with h1
        subst h1
        have hrec := evalList_nameError_sound env es n ht
        refine ⟨hrec.1, ?_⟩
        rw [identsOfList]
        exact List.mem_append_right _ hrec.2
      | ok vs =>
        rw [ht] at hcon
        dsimp only at hcon
        cases hcon
end

theorem eval_name_scope_none (sources : List (String × Provider))
    (builtins : String → Option Val) (n : String) :
    eval_name_scope sources builtins n = none ↔
      subscription_eval_locals sources n = none ∧ builtins n = none := by
  unfold eval_name_scope
  cases hl : subscription_eval_locals sources n <;> simp [hl]

theorem eval_name_scope_eq_none (sources : List (String × Provider))
    (builtins : String → Option Val) (n : String)
    (h1 : subscription_eval_locals sources n = none) (h2 : builtins n = none) :
    eval_name_scope sources builtins n = none :=
  (eval_name_scope_none sources builtins n).mpr ⟨h1, h2⟩

/-- C8 counterexample: eval(expr, empty globals, locals) falls back to the
Python builtins namespace, so an identifier that is registered neither as a
source nor as a filter but names a builtin never produces the unknown filter
or source error: the bare subscription len wires silently (subscribe accepts
the builtin function object with no error at all), and abs(iface) fails with
the TypeError the builtin raises, which the except NameError clause of
from_config does not convert. -/
theorem builtin_name_wires_silently :
    subscription_eval_locals [("iface", c6_iface)] "len" = none
    ∧ subscription_eval_locals [("iface", c6_iface)] "abs" = none
    ∧ wire_subscription c8_scope (.ident "len") = .ok (.builtin "len")
    ∧ wire_subscription c8_scope (.call "abs" (.econs (.ident "iface") .enil))
        = .error (.raised (.typeError "builtin abs rejected its arguments")) :=
  ⟨rfl, rfl, rfl, rfl⟩

/-- C8 amended: name resolution of subscription expressions over the full
chain eval consults, the locals dict and then the builtins namespace. An
identifier registered neither as a source nor as a filter and absent from
the builtins namespace makes the eval raise a NameError immediately, in call
position and in bare position alike; conversely every NameError raised
during evaluation concerns an identifier the expression uses that is absent
from both the registrations and the builtins; the wiring step of from_config
re-raises that NameError as the user-facing unknown filter or source error
whose message names the identifier; and a failing subscription makes the
whole wiring loop fail, so the error propagates to startup. -/
theorem unknown_identifier_error :
    (∀ (sources : List (String × Provider)) (builtins : String → Option Val)
        (n : String) (args : ExprList),
        subscription_eval_locals sources n = none → builtins n = none →
        evalExpr (eval_name_scope sources builtins) (.call n args)
          = .error (.nameError n))
    ∧ (∀ (sources : List (String × Provider)) (builtins : String → Option Val)
        (n : String),
        subscription_eval_locals sources n = none → builtins n = none →
        evalExpr (eval_name_scope sources builtins) (.ident n)
          = .error (.nameError n))
    ∧ (∀ (sources : List (String × Provider)) (builtins : String → Option Val)
        (e : Expr) (n : String),
        evalExpr (eval_name_scope sources builtins) e = .error (.nameError n) →
          subscription_eval_locals sources n = none ∧ builtins n = none ∧
            n ∈ identsOfExpr e)
    ∧ (∀ (env : String → Option Val) (e : Expr) (n : String),
        evalExpr env e = .error (.nameError n) →
          wire_subscription env e = .error (.userError (nameErrorMsg n)))
    ∧ (∀ (env : String → Option Val) (es : List Expr) (e : Expr) (err : WireErr),
        e ∈ es → wire_subscription env e = .error err →
          ∃ err2, wire_all env es = .error err2) := by
  refine ⟨?_, ?_, ?_, ?_, ?_⟩
  · intro sources builtins n args h1 h2
    rw [evalExpr, eval_name_scope_eq_none sources builtins n h1 h2]
  · intro sources builtins n h1 h2
    rw [evalExpr, eval_name_scope_eq_none sources builtins n h1 h2]
  · intro sources builtins e n he
    have h := evalExpr_nameError_sound (eval_name_scope sources builtins) e n he
    have hs := (eval_name_scope_none sources builtins n).mp h.1
    exact ⟨hs.1, hs.2, h.2⟩
  · intro env e n he
    rw [wire_subscription, he]
  · intro env es e err hmem hwe
    induction es with
    | nil => cases hmem
    | cons e2 rest ih =>
      rcases List.mem_cons.mp hmem with heq | hmem2
      · subst heq
        exact ⟨err, by rw [wire_all, hwe]⟩
      · cases hw2 : wire_subscription env e2 with
        | error err3 => exact ⟨err3, by rw [wire_all, hw2]⟩
        | ok v =>
          obtain ⟨err2, h2⟩ := ih hmem2
          exact ⟨err2, by rw [wire_all, hw2, h2]⟩

/-- C8 witness: foo(iface), where foo is registered neither as a source nor
as a filter and is no builtin, evaluates to a NameError naming foo; the
wiring turns it into the unknown filter or source user error naming foo, and
a subscription list containing it makes the whole wiring fail. -/
theorem unknown_identifier_error_witness :
    evalExpr c8_scope c8_expr = .error (.nameError "foo")
    ∧ wire_subscription c8_scope c8_expr
        = .error (.userError (nameErrorMsg "foo"))
    ∧ ∃ err2, wire_all c8_scope [c8_expr] = .error err2 :=
  ⟨unknown_identifier_error.1 [("iface", c6_iface)] pyBuiltinsEx "foo"
     (.econs (.ident "iface") .enil) rfl rfl,
   unknown_identifier_error.2.2.2.1 c8_scope c8_expr "foo"
     (unknown_identifier_error.1 [("iface", c6_iface)] pyBuiltinsEx "foo"
       (.econs (.ident "iface") .enil) rfl rfl),
   unknown_identifier_error.2.2.2.2 c8_scope [c8_expr] c8_expr
     (.userError (nameErrorMsg "foo"))
     (List.mem_singleton.mpr rfl)
     (unknown_identifier_error.2.2.2.1 c8_scope c8_expr "foo"
       (unknown_identifier_error.1 [("iface", c6_iface)] pyBuiltinsEx "foo"
         (.econs (.ident "iface") .enil) rfl rfl))⟩

end DDNSWolf
